import Mathlib

/-!
Verification development for the voice-session core of the repository:
the `GeminiLiveClient` class (services/gemini-live.ts) and the transcript
aggregation callback `onMessage` of the App component (App.tsx).

Embedding conventions:
- Device and buffer times (AudioContext.currentTime, AudioBuffer.duration)
  are modelled as rationals.
- Nullable resource handles (audio contexts, media stream, processor,
  source node) are modelled as Booleans recording whether the handle is
  non-null; an operation on a null handle is a JavaScript TypeError and is
  modelled in the Except monad.
- The active-source set is modelled as a list of numeric source ids in
  insertion order; fresh ids are assigned by position.
- Asynchronous callback code is sequentialized in source-text order.
-/

/-- Role of a transcript record: the App stores the string role
user or model (App.tsx line 65). -/
inductive Role
  | user
  | model
deriving DecidableEq, Repr

/-- Embedding of the Message record (types.ts lines 14-20).  The id field
(Date.now().toString()) and the timestamp (new Date()) are environment
clock readings; both are modelled by the Nat stamp passed to onMessage. -/
structure Message where
  id : Nat
  role : Role
  text : String
  isComplete : Bool
  timestamp : Nat
deriving DecidableEq, Repr

/-- The role selected by the isUser flag (App.tsx lines 54 and 65). -/
def roleOf (isUser : Bool) : Role :=
  if isUser then Role.user else Role.model

/-- Embedding of the App onMessage callback (App.tsx lines 51-72).
Reads the last record; if it has the same role as the incoming fragment
and is not complete, the fragment text is appended to it (and it is marked
complete when the fragment carries the completion flag); otherwise a fresh
record is appended. -/
def onMessage (stamp : Nat) (prev : List Message) (text : String)
    (isUser : Bool) (isComplete : Bool) : List Message :=
  match prev.getLast? with
  | some lastMsg =>
      if lastMsg.role = roleOf isUser ∧ lastMsg.isComplete = false then
        prev.dropLast ++
          [{ lastMsg with
              text := lastMsg.text ++ text,
              isComplete := if isComplete then true else lastMsg.isComplete }]
      else
        prev ++ [⟨stamp, roleOf isUser, text, isComplete, stamp⟩]
  | none => prev ++ [⟨stamp, roleOf isUser, text, isComplete, stamp⟩]

/-- Folds a list of routed (text, isUser, isComplete) events through
onMessage, advancing the clock stamp once per event. -/
def runEvents (stamp : Nat) (prev : List Message) :
    List (String × Bool × Bool) → List Message
  | [] => prev
  | e :: es => runEvents (stamp + 1) (onMessage stamp prev e.1 e.2.1 e.2.2) es

/-- An inbound audio chunk as seen by playAudioChunk: the device clock
value read at scheduling time (outputAudioContext.currentTime, line 208),
the decoded buffer duration (line 214), and whether decodeAudioData
succeeds (lines 200-201; on failure the catch at lines 220-222 fires). -/
structure Chunk where
  now : ℚ
  dur : ℚ
  ok : Bool
deriving DecidableEq, Repr

/-- Embedding of the LiveServerMessage fields read by handleMessage
(gemini-live.ts lines 159-194): the two transcription fragments, the
turn-complete flag, the inline audio payload of the model turn (already
paired with its decode outcome) and the interruption flag. -/
structure ServerMsg where
  outputTranscription : Option String
  inputTranscription : Option String
  turnComplete : Bool
  audioData : Option Chunk
  interrupted : Bool
deriving DecidableEq, Repr

/-- Embedding of the transcript routing of handleMessage (gemini-live.ts
lines 159-178): an if / else-if pair for the output and input
transcription fragments, followed by an independent check that routes the
turn-complete signal as an empty fragment with isUser = false and
isComplete = true. -/
def routeTranscription (m : ServerMsg) : List (String × Bool × Bool) :=
  (match m.outputTranscription with
   | some t => [(t, false, false)]
   | none =>
       match m.inputTranscription with
       | some t => [(t, true, false)]
       | none => []) ++
  (if m.turnComplete then [("", false, true)] else [])

/-- Routes a list of inbound messages through the transcript part of
handleMessage and folds the resulting events through the App onMessage
callback. -/
def routeAndAggregate (stamp : Nat) (prev : List Message) :
    List ServerMsg → List Message
  | [] => prev
  | m :: ms =>
      routeAndAggregate (stamp + (routeTranscription m).length)
        (runEvents stamp prev (routeTranscription m)) ms

/-- Embedding of the mutable fields of GeminiLiveClient (gemini-live.ts
lines 14-27).  Resource handles are Booleans recording non-nullness;
sessionActive records that sessionPromise is non-null. -/
structure ClientState where
  inputCtx : Bool
  outputCtx : Bool
  mediaStream : Bool
  processor : Bool
  source : Bool
  nextStartTime : ℚ
  isConnected : Bool
  sessionActive : Bool
  activeSources : List Nat
deriving DecidableEq, Repr

/-- Field values set by the constructor (gemini-live.ts lines 14-27):
all handles null, nextStartTime 0, not connected, no session, empty
active-source set. -/
def initialState : ClientState :=
  { inputCtx := false, outputCtx := false, mediaStream := false,
    processor := false, source := false, nextStartTime := 0,
    isConnected := false, sessionActive := false, activeSources := [] }

/-- Embedding of playAudioChunk (gemini-live.ts lines 196-223) for one
chunk.  Returns the updated state and the scheduled start time (none when
the output context is null, line 197, or when decoding fails and the catch
at lines 220-222 swallows the error leaving the state untouched).  On
success the start time is the current nextStartTime caught up to the
device clock (lines 208-211), the chunk is scheduled there (line 213),
nextStartTime advances by the buffer duration (line 214) and the new
source is registered in the active set (line 216). -/
def playAudioChunk (s : ClientState) (srcId : Nat) (c : Chunk) :
    ClientState × Option ℚ :=
  if s.outputCtx = false then (s, none)
  else if c.ok = false then (s, none)
  else
    ({ s with
        nextStartTime :=
          (if s.nextStartTime < c.now then c.now else s.nextStartTime) + c.dur,
        activeSources := s.activeSources ++ [srcId] },
     some (if s.nextStartTime < c.now then c.now else s.nextStartTime))

/-- Processes a sequence of inbound audio chunks through playAudioChunk,
assigning fresh source ids by position and collecting the scheduled start
time of each chunk (none for dropped chunks). -/
def playSeq (s : ClientState) (i : Nat) : List Chunk → ClientState × List (Option ℚ)
  | [] => (s, [])
  | c :: cs =>
      ((playSeq (playAudioChunk s i c).1 (i + 1) cs).1,
       (playAudioChunk s i c).2 :: (playSeq (playAudioChunk s i c).1 (i + 1) cs).2)

/-- Embedding of the guarded stop of one playback unit (gemini-live.ts
line 189): source.stop() may raise (modelled by the stopThrows oracle);
the try/catch swallows the exception so the statement never propagates
one. -/
def tryCatchStop (stopThrows : Nat → Bool) (u : Nat) : Except String Unit :=
  match (if stopThrows u then Except.error "InvalidStateError"
         else Except.ok ()) with
  | Except.error _ => Except.ok ()
  | Except.ok _ => Except.ok ()

/-- Embedding of the forEach over activeSources in the interruption branch
(gemini-live.ts lines 188-190).  Returns the ids on which stop was
invoked, in iteration order; an uncaught exception in the body would abort
the iteration and propagate (the error branches). -/
def stopAllGuarded (stopThrows : Nat → Bool) : List Nat → Except String (List Nat)
  | [] => Except.ok []
  | u :: us =>
      match tryCatchStop stopThrows u with
      | Except.error e => Except.error e
      | Except.ok _ =>
          match stopAllGuarded stopThrows us with
          | Except.error e => Except.error e
          | Except.ok rest => Except.ok (u :: rest)

/-- Embedding of the interruption branch of handleMessage (gemini-live.ts
lines 187-193): stop every active source, clear the set, reset
nextStartTime to 0.  Returns the new state and the stop-invocation
trace. -/
def handleInterrupted (stopThrows : Nat → Bool) (s : ClientState) :
    Except String (ClientState × List Nat) :=
  match stopAllGuarded stopThrows s.activeSources with
  | Except.error e => Except.error e
  | Except.ok stopped =>
      Except.ok ({ s with activeSources := [], nextStartTime := 0 }, stopped)

/-- Result of processing one inbound message: the new client state, the
onMessage events emitted to the UI, the start time scheduled for the audio
payload (if any) and the ids on which stop was invoked. -/
structure HandleResult where
  state : ClientState
  msgEvents : List (String × Bool × Bool)
  scheduledStart : Option ℚ
  stopped : List Nat
deriving DecidableEq, Repr

/-- The audio-output step of handleMessage (gemini-live.ts lines 180-184):
the payload is played only when present and the output context is
non-null. -/
def audioStep (s : ClientState) (freshId : Nat) (m : ServerMsg) :
    ClientState × Option ℚ :=
  match m.audioData with
  | some c => if s.outputCtx then playAudioChunk s freshId c else (s, none)
  | none => (s, none)

/-- Embedding of handleMessage (gemini-live.ts lines 159-194) in
source-text order: transcription routing, audio output, interruption. -/
def handleMessage (stopThrows : Nat → Bool) (s : ClientState) (freshId : Nat)
    (m : ServerMsg) : Except String HandleResult :=
  if m.interrupted then
    match handleInterrupted stopThrows (audioStep s freshId m).1 with
    | Except.error e => Except.error e
    | Except.ok p =>
        Except.ok ⟨p.1, routeTranscription m, (audioStep s freshId m).2, p.2⟩
  else
    Except.ok ⟨(audioStep s freshId m).1, routeTranscription m,
               (audioStep s freshId m).2, []⟩

/-- Observable actions of the connection lifecycle: resource acquisition,
the error event emitted to the UI, and the resource releases performed by
cleanup. -/
inductive LiveAction
  | createdInputCtx
  | createdOutputCtx
  | acquiredMic
  | openedTransport
  | emittedError
  | stoppedTracks
  | disconnectedProcessor
  | disconnectedSource
  | closedInputCtx
  | closedOutputCtx
deriving DecidableEq, Repr

/-- Dereferencing a handle: a JavaScript method call on a null handle
raises a TypeError. -/
def useHandle (present : Bool) : Except String Unit :=
  if present then Except.ok () else Except.error "TypeError: handle is null"

/-- One guarded release step of cleanup (the pattern
if (this.x) \x7b this.x.op(); this.x = null; \x7d at gemini-live.ts
lines 237-260): when the handle is present it is used and nulled, emitting
the release action; otherwise nothing happens. -/
def releaseRes (present : Bool) (act : LiveAction) : Except String (Bool × List LiveAction) :=
  if present then
    match useHandle present with
    | Except.error e => Except.error e
    | Except.ok _ => Except.ok (false, [act])
  else Except.ok (present, [])

/-- Embedding of cleanup (gemini-live.ts lines 234-264): clears
isConnected, releases the media stream, processor, source and both audio
contexts in source order (each behind a null guard), clears the
active-source set and resets nextStartTime.  sessionPromise is not
nulled. -/
def cleanup (s : ClientState) : Except String (ClientState × List LiveAction) :=
  match releaseRes s.mediaStream LiveAction.stoppedTracks with
  | Except.error e => Except.error e
  | Except.ok p1 =>
    match releaseRes s.processor LiveAction.disconnectedProcessor with
    | Except.error e => Except.error e
    | Except.ok p2 =>
      match releaseRes s.source LiveAction.disconnectedSource with
      | Except.error e => Except.error e
      | Except.ok p3 =>
        match releaseRes s.inputCtx LiveAction.closedInputCtx with
        | Except.error e => Except.error e
        | Except.ok p4 =>
          match releaseRes s.outputCtx LiveAction.closedOutputCtx with
          | Except.error e => Except.error e
          | Except.ok p5 =>
            Except.ok
              ({ inputCtx := p4.1, outputCtx := p5.1, mediaStream := p1.1,
                 processor := p2.1, source := p3.1, nextStartTime := 0,
                 isConnected := false, sessionActive := s.sessionActive,
                 activeSources := [] },
               p1.2 ++ p2.2 ++ p3.2 ++ p4.2 ++ p5.2)

/-- The state cleanup leaves behind: every handle null, not connected,
empty active set, timeline reset; only sessionActive survives. -/
def clearedState (s : ClientState) : ClientState :=
  { inputCtx := false, outputCtx := false, mediaStream := false,
    processor := false, source := false, nextStartTime := 0,
    isConnected := false, sessionActive := s.sessionActive,
    activeSources := [] }

/-- The release actions cleanup performs, one per handle present. -/
def cleanupTrace (s : ClientState) : List LiveAction :=
  (if s.mediaStream then [LiveAction.stoppedTracks] else []) ++
  (if s.processor then [LiveAction.disconnectedProcessor] else []) ++
  (if s.source then [LiveAction.disconnectedSource] else []) ++
  (if s.inputCtx then [LiveAction.closedInputCtx] else []) ++
  (if s.outputCtx then [LiveAction.closedOutputCtx] else [])

/-- Embedding of connect (gemini-live.ts lines 34-127).  The guard at
line 35 returns immediately when isConnected is true.  Otherwise both
audio contexts are created (lines 39-44), the microphone is requested
(line 47, outcome micOk), the system instruction is assembled (pure text,
lines 49-87, no state effect) and the live session is initiated (line 90,
setting sessionPromise).  A failure lands in the catch at lines 122-126:
the error event is emitted to the UI and then cleanup runs. -/
def connect (s : ClientState) (micOk : Bool) : Except String (ClientState × List LiveAction) :=
  if s.isConnected then Except.ok (s, [])
  else
    if micOk then
      Except.ok ({ s with inputCtx := true, outputCtx := true,
                          mediaStream := true, sessionActive := true },
                 [LiveAction.createdInputCtx, LiveAction.createdOutputCtx,
                  LiveAction.acquiredMic, LiveAction.openedTransport])
    else
      match cleanup { s with inputCtx := true, outputCtx := true } with
      | Except.error e => Except.error e
      | Except.ok p =>
          Except.ok (p.1,
            [LiveAction.createdInputCtx, LiveAction.createdOutputCtx,
             LiveAction.emittedError] ++ p.2)

/-- The action trace of a connect call (empty on the error branch, which
the source never reaches). -/
def connectTrace (s : ClientState) (micOk : Bool) : List LiveAction :=
  match connect s micOk with
  | Except.ok p => p.2
  | Except.error _ => []

/-- Embedding of disconnect (gemini-live.ts lines 225-232): cleanup, then
an asynchronous close of the session with any rejection swallowed by the
trailing catch, then isConnected is set false. -/
def disconnect (s : ClientState) : Except String (ClientState × List LiveAction) :=
  match cleanup s with
  | Except.error e => Except.error e
  | Except.ok p => Except.ok ({ p.1 with isConnected := false }, p.2)

/-- Embedding of the onerror transport callback (gemini-live.ts
lines 114-118): the error event is emitted to the UI and then cleanup
runs. -/
def onErrorCb (s : ClientState) : Except String (ClientState × List LiveAction) :=
  match cleanup s with
  | Except.error e => Except.error e
  | Except.ok p => Except.ok (p.1, LiveAction.emittedError :: p.2)

/-- View of the start times playAudioChunk computes for a list of chunks
that all decode, from timeline value t: each start is the running
nextStartTime caught up to the device clock of the chunk. -/
def schedList (t : ℚ) : List Chunk → List ℚ
  | [] => []
  | c :: cs =>
      (if t < c.now then c.now else t) ::
        schedList ((if t < c.now then c.now else t) + c.dur) cs

/-- View of the final nextStartTime after scheduling a list of chunks that
all decode, from timeline value t. -/
def schedNext (t : ℚ) : List Chunk → ℚ
  | [] => t
  | c :: cs => schedNext ((if t < c.now then c.now else t) + c.dur) cs

/-- Every chunk of the list arrives while the timeline value t is already
at or past its device clock, so the catch-up branch never fires. -/
def noStallAux (t : ℚ) : List Chunk → Bool
  | [] => true
  | c :: cs => decide (c.now ≤ t) && noStallAux (t + c.dur) cs

/-- Stall-freedom for a chunk sequence started at timeline value t: the
first chunk is unconstrained (it may find the timeline behind the device
clock), every later chunk arrives before the scheduled backlog runs
out. -/
def noStall (t : ℚ) : List Chunk → Bool
  | [] => true
  | c :: cs => noStallAux ((if t < c.now then c.now else t) + c.dur) cs

/-- The scheduling properties of claim C1, for a chunk sequence processed
from state s with fresh ids from i: the computed starts are exactly the
schedList view, they are non-decreasing, the first equals the initial
timeline value caught up to the device clock, consecutive starts are
gapless, the final nextStartTime is the schedNext view, and each single
successful playAudioChunk call advances nextStartTime by exactly the
chunk duration past the scheduled start. -/
def C1Prop (s : ClientState) (i : Nat) (cs : List Chunk) : Prop :=
  (playSeq s i cs).2 = (schedList 0 cs).map some ∧
  List.Chain' (fun a b => a ≤ b) (schedList 0 cs) ∧
  (∀ c rest, cs = c :: rest →
     (schedList 0 cs).head? = some (if (0 : ℚ) < c.now then c.now else 0)) ∧
  List.Chain' (fun p q => q.1 = p.1 + p.2)
    ((schedList 0 cs).zip (cs.map Chunk.dur)) ∧
  (playSeq s i cs).1.nextStartTime = schedNext 0 cs ∧
  (∀ s2 id c, s2.outputCtx = true → c.ok = true →
     (playAudioChunk s2 id c).1.nextStartTime =
       ((playAudioChunk s2 id c).2.getD 0) + c.dur)

/-- The decode-failure locality properties of claim C9: a failed chunk
leaves the state untouched and schedules nothing, handleMessage surfaces
no event beyond the transcript routing, and the surviving chunks schedule
exactly as the failure-free subsequence would, gaplessly among
themselves. -/
def C9Prop (s : ClientState) (i : Nat) (cs : List Chunk) : Prop :=
  (∀ s2 id c, c.ok = false → playAudioChunk s2 id c = (s2, none)) ∧
  (∀ f s2 id m, ∃ r, handleMessage f s2 id m = Except.ok r ∧
     r.msgEvents = routeTranscription m) ∧
  (playSeq s i cs).2.reduceOption = schedList 0 (cs.filter fun c => c.ok) ∧
  (playSeq s i cs).1.nextStartTime = schedNext 0 (cs.filter fun c => c.ok) ∧
  List.Chain' (fun p q => q.1 = p.1 + p.2)
    ((schedList 0 (cs.filter fun c => c.ok)).zip
      ((cs.filter fun c => c.ok).map Chunk.dur))

/-- A fully open session: every handle acquired, connected, fresh
timeline. -/
def liveState : ClientState :=
  { inputCtx := true, outputCtx := true, mediaStream := true,
    processor := true, source := true, nextStartTime := 0,
    isConnected := true, sessionActive := true, activeSources := [] }

/-- The state of the client after connect has returned but before the
onopen callback fires: contexts created, microphone held, sessionPromise
set, isConnected still false.  This is the Connecting state of the
spec. -/
def connectingState : ClientState :=
  { inputCtx := true, outputCtx := true, mediaStream := true,
    processor := false, source := false, nextStartTime := 0,
    isConnected := false, sessionActive := true, activeSources := [] }

/-- Inbound fragment sequence of claim C3: user says hello in two
fragments, the turn completes, then the agent says hi. -/
def c3Input : List ServerMsg :=
  [⟨none, some "he", false, none, false⟩,
   ⟨none, some "llo", false, none, false⟩,
   ⟨none, none, true, none, false⟩,
   ⟨some "hi", none, false, none, false⟩]

/-- Inbound fragment sequence of claim C4: a user fragment followed by an
agent fragment with no explicit turn-complete. -/
def c4Input : List ServerMsg :=
  [⟨none, some "hi", false, none, false⟩,
   ⟨some "hey", none, false, none, false⟩]

/-- A message carrying both an input-transcription and an
output-transcription fragment (claim C5). -/
def c5Msg : ServerMsg := ⟨some "b", some "a", false, none, false⟩

/-- Chunk sequence exhibiting a playback stall: the second chunk arrives
at device time 5, after the first (scheduled at 0, duration 1) has ended. -/
def c1CexInput : List Chunk := [⟨0, 1, true⟩, ⟨5, 1, true⟩]

/-- Stall-free all-decoding chunk sequence used to witness claim C1. -/
def c1WitInput : List Chunk := [⟨0, 1, true⟩, ⟨1, 2, true⟩]

/-- Chunk sequence for the C9 counterexample: the middle chunk fails to
decode and the surviving chunks are separated by a stall. -/
def c9CexInput : List Chunk := [⟨0, 1, true⟩, ⟨0, 1, false⟩, ⟨5, 1, true⟩]

/-- Chunk sequence used to witness claim C9: the middle chunk fails to
decode, the surviving chunks are stall-free among themselves. -/
def c9WitInput : List Chunk := [⟨0, 1, true⟩, ⟨0, 2, false⟩, ⟨1, 3, true⟩]

/-- An open session holding two active playback units with a nonzero
timeline, used to witness claim C2. -/
def c2WitState : ClientState :=
  { liveState with activeSources := [0, 1], nextStartTime := 7 }

/-- An inbound message carrying only the interruption flag. -/
def c2WitMsg : ServerMsg := ⟨none, none, false, none, true⟩

/-- A message carrying both transcription fragments and the turn-complete
flag, used to witness claim C5. -/
def c5WitMsg : ServerMsg := ⟨some "b", some "a", true, none, false⟩

/-- A fully opened connection as seen right after the onopen callback has
set isConnected. -/
def openedState : ClientState := { connectingState with isConnected := true }

lemma playAudioChunk_ok (s : ClientState) (i : Nat) (c : Chunk)
    (hctx : s.outputCtx = true) (hok : c.ok = true) :
    playAudioChunk s i c =
      ({ s with
          nextStartTime :=
            (if s.nextStartTime < c.now then c.now else s.nextStartTime) + c.dur,
          activeSources := s.activeSources ++ [i] },
       some (if s.nextStartTime < c.now then c.now else s.nextStartTime)) := by
  simp [playAudioChunk, hctx, hok]

lemma playAudioChunk_fail (s : ClientState) (i : Nat) (c : Chunk)
    (hok : c.ok = false) :
    playAudioChunk s i c = (s, none) := by
  cases h : s.outputCtx <;> simp [playAudioChunk, h, hok]

lemma playAudioChunk_sources (s : ClientState) (i : Nat) (c : Chunk) (u : Nat)
    (hu : u ∈ s.activeSources) :
    u ∈ (playAudioChunk s i c).1.activeSources := by
  unfold playAudioChunk
  split
  · exact hu
  · split
    · exact hu
    · simp only []
      exact List.mem_append_left _ hu

lemma playSeq_view (cs : List Chunk) : ∀ (s : ClientState) (i : Nat),
    s.outputCtx = true →
    (playSeq s i cs).1.outputCtx = true ∧
    (playSeq s i cs).1.nextStartTime =
      schedNext s.nextStartTime (cs.filter fun c => c.ok) ∧
    (playSeq s i cs).2.reduceOption =
      schedList s.nextStartTime (cs.filter fun c => c.ok) := by
  induction cs with
  | nil =>
      intro s i h
      simp [playSeq, schedNext, schedList, h, List.reduceOption]
  | cons c cs ih =>
      intro s i h
      cases hok : c.ok with
      | false =>
          have hpa := playAudioChunk_fail s i c hok
          have hrec := ih s (i + 1) h
          simp [playSeq, hpa, List.filter_cons, hok, List.reduceOption] at hrec ⊢
          exact hrec
      | true =>
          have hpa := playAudioChunk_ok s i c h hok
          have hrec := ih { s with
              nextStartTime :=
                (if s.nextStartTime < c.now then c.now else s.nextStartTime) + c.dur,
              activeSources := s.activeSources ++ [i] } (i + 1) h
          simp [playSeq, hpa, List.filter_cons, hok, List.reduceOption,
                schedNext, schedList] at hrec ⊢
          exact hrec

lemma playSeq_all_ok (cs : List Chunk) : ∀ (s : ClientState) (i : Nat),
    s.outputCtx = true → (∀ c ∈ cs, c.ok = true) →
    (playSeq s i cs).2 = (schedList s.nextStartTime cs).map some := by
  induction cs with
  | nil =>
      intro s i h _
      simp [playSeq, schedList]
  | cons c cs ih =>
      intro s i h hok
      have hco : c.ok = true := hok c (by simp)
      have hpa := playAudioChunk_ok s i c h hco
      have hrec := ih { s with
          nextStartTime :=
            (if s.nextStartTime < c.now then c.now else s.nextStartTime) + c.dur,
          activeSources := s.activeSources ++ [i] } (i + 1) h
        (fun d hd => hok d (by simp [hd]))
      simp [playSeq, hpa, schedList] at hrec ⊢
      exact hrec

lemma catchup_ge (t : ℚ) (c : Chunk) : t ≤ if t < c.now then c.now else t := by
  split
  · exact le_of_lt (by assumption)
  · exact le_refl t

lemma schedList_mono (cs : List Chunk) : ∀ t : ℚ, (∀ c ∈ cs, 0 ≤ c.dur) →
    List.Chain' (fun a b => a ≤ b) (schedList t cs) := by
  induction cs with
  | nil => intro t _; simp [schedList]
  | cons c cs ih =>
      intro t hd
      have hdc : 0 ≤ c.dur := hd c (by simp)
      have htail := ih ((if t < c.now then c.now else t) + c.dur)
        (fun d hdm => hd d (by simp [hdm]))
      cases cs with
      | nil => simp [schedList]
      | cons c2 cs2 =>
          simp only [schedList] at htail ⊢
          refine List.chain'_cons.mpr ⟨?_, htail⟩
          calc (if t < c.now then c.now else t)
              ≤ (if t < c.now then c.now else t) + c.dur :=
                le_add_of_nonneg_right hdc
            _ ≤ _ := catchup_ge _ c2

lemma gapless_aux (cs : List Chunk) : ∀ t : ℚ, noStallAux t cs = true →
    (∀ c rest, cs = c :: rest → (schedList t cs).head? = some t) ∧
    List.Chain' (fun p q => q.1 = p.1 + p.2)
      ((schedList t cs).zip (cs.map Chunk.dur)) := by
  induction cs with
  | nil =>
      intro t _
      exact ⟨(fun c rest h => nomatch h), by simp [schedList]⟩
  | cons c cs ih =>
      intro t h
      rw [noStallAux, Bool.and_eq_true, decide_eq_true_eq] at h
      obtain ⟨hle, hrest⟩ := h
      have hst : (if t < c.now then c.now else t) = t := if_neg (not_lt.mpr hle)
      refine ⟨fun d rest heq => ?_, ?_⟩
      · simp [schedList, hst]
      · cases cs with
        | nil => simp [schedList, hst]
        | cons c2 cs2 =>
            obtain ⟨_, hchain⟩ := ih (t + c.dur) hrest
            rw [noStallAux, Bool.and_eq_true, decide_eq_true_eq] at hrest
            obtain ⟨hle2, _⟩ := hrest
            have hst2 : (if t + c.dur < c2.now then c2.now else t + c.dur) =
                t + c.dur := if_neg (not_lt.mpr hle2)
            simp only [schedList, hst, hst2, List.map_cons, List.zip_cons_cons]
              at hchain ⊢
            exact List.chain'_cons.mpr ⟨rfl, hchain⟩

lemma gapless_noStall (cs : List Chunk) (t : ℚ) (h : noStall t cs = true) :
    List.Chain' (fun p q => q.1 = p.1 + p.2)
      ((schedList t cs).zip (cs.map Chunk.dur)) := by
  cases cs with
  | nil => simp [schedList]
  | cons c cs =>
      rw [noStall] at h
      obtain ⟨_, hchain⟩ :=
        gapless_aux cs ((if t < c.now then c.now else t) + c.dur) h
      cases cs with
      | nil => simp [schedList]
      | cons c2 cs2 =>
          rw [noStallAux, Bool.and_eq_true, decide_eq_true_eq] at h
          obtain ⟨hle2, _⟩ := h
          have hst2 :
              (if (if t < c.now then c.now else t) + c.dur < c2.now then c2.now
               else (if t < c.now then c.now else t) + c.dur) =
                (if t < c.now then c.now else t) + c.dur :=
            if_neg (not_lt.mpr hle2)
          simp only [schedList, hst2, List.map_cons, List.zip_cons_cons]
            at hchain ⊢
          exact List.chain'_cons.mpr ⟨rfl, hchain⟩

lemma tryCatchStop_eq (f : Nat → Bool) (u : Nat) :
    tryCatchStop f u = Except.ok () := by
  cases h : f u <;> simp [tryCatchStop, h]

lemma stopAllGuarded_eq (f : Nat → Bool) : ∀ l : List Nat,
    stopAllGuarded f l = Except.ok l := by
  intro l
  induction l with
  | nil => rfl
  | cons u us ih => simp [stopAllGuarded, tryCatchStop_eq, ih]

lemma handleInterrupted_eq (f : Nat → Bool) (s : ClientState) :
    handleInterrupted f s =
      Except.ok ({ s with activeSources := [], nextStartTime := 0 },
                 s.activeSources) := by
  simp [handleInterrupted, stopAllGuarded_eq]

lemma audioStep_sources (s : ClientState) (i : Nat) (m : ServerMsg) (u : Nat)
    (hu : u ∈ s.activeSources) :
    u ∈ (audioStep s i m).1.activeSources := by
  unfold audioStep
  cases m.audioData with
  | none => exact hu
  | some c =>
      simp only []
      split
      · exact playAudioChunk_sources s i c u hu
      · exact hu

lemma handleMessage_eq_of_interrupted (f : Nat → Bool) (s : ClientState)
    (i : Nat) (m : ServerMsg) (h : m.interrupted = true) :
    handleMessage f s i m =
      Except.ok ⟨{ (audioStep s i m).1 with activeSources := [], nextStartTime := 0 },
                 routeTranscription m, (audioStep s i m).2,
                 (audioStep s i m).1.activeSources⟩ := by
  simp [handleMessage, h, handleInterrupted_eq]

lemma handleMessage_eq_of_not_interrupted (f : Nat → Bool) (s : ClientState)
    (i : Nat) (m : ServerMsg) (h : m.interrupted = false) :
    handleMessage f s i m =
      Except.ok ⟨(audioStep s i m).1, routeTranscription m,
                 (audioStep s i m).2, []⟩ := by
  simp [handleMessage, h]

lemma releaseRes_eq (p : Bool) (a : LiveAction) :
    releaseRes p a = Except.ok (false, if p then [a] else []) := by
  cases p <;> simp [releaseRes, useHandle]

lemma cleanup_ok (s : ClientState) :
    cleanup s = Except.ok (clearedState s, cleanupTrace s) := by
  simp [cleanup, releaseRes_eq, clearedState, cleanupTrace]

lemma disconnect_ok (s : ClientState) :
    disconnect s = Except.ok (clearedState s, cleanupTrace s) := by
  simp [disconnect, cleanup_ok, clearedState]

lemma clearedState_idem (s : ClientState) :
    clearedState (clearedState s) = clearedState s := rfl

lemma cleanupTrace_cleared (s : ClientState) :
    cleanupTrace (clearedState s) = [] := rfl

/-- Claim C1, counterexample to the claim as stated: two successfully
decoded chunks with no interruption, but the second arrives at device
time 5 after the first (start 0, duration 1) has finished.  The code
catches the timeline up to the device clock and schedules the second
chunk at 5, not at the previous start plus the previous duration (1), so
the consecutive-start equality of the claim fails. -/
theorem c1_cex :
    (playSeq liveState 0 c1CexInput).2 = [some 0, some 5] ∧
    ¬ List.Chain' (fun p q => q.1 = p.1 + p.2)
        (((playSeq liveState 0 c1CexInput).2.reduceOption).zip
          (c1CexInput.map Chunk.dur)) := by
  constructor
  · norm_num [playSeq, playAudioChunk, liveState, c1CexInput]
  · have h : ((playSeq liveState 0 c1CexInput).2.reduceOption).zip
        (c1CexInput.map Chunk.dur) = [((0 : ℚ), (1 : ℚ)), (5, 1)] := by
      norm_num [playSeq, playAudioChunk, liveState, c1CexInput,
                List.reduceOption, List.filterMap]
    rw [h]
    intro hch
    have := List.chain'_cons.mp hch
    norm_num at this

/-- Claim C1 (amended): for successfully decoded chunks with nonnegative
durations, no interruption, nextStartTime initially 0, and no stall (each
chunk after the first arrives at a device time not exceeding the current
nextStartTime), the scheduled starts are non-decreasing, the first equals
max(0, device-now at arrival), each later start equals the previous start
plus the previous duration, and each scheduled chunk advances
nextStartTime by exactly its duration past its start. -/
theorem c1_gapless_schedule (s : ClientState) (i : Nat) (cs : List Chunk)
    (hctx : s.outputCtx = true) (h0 : s.nextStartTime = 0)
    (hok : ∀ c ∈ cs, c.ok = true) (hd : ∀ c ∈ cs, 0 ≤ c.dur)
    (hns : noStall 0 cs = true) : C1Prop s i cs := by
  have hfilt : cs.filter (fun c => c.ok) = cs :=
    List.filter_eq_self.mpr (fun a ha => by simp [hok a ha])
  have hview := playSeq_view cs s i hctx
  refine ⟨?_, ?_, ?_, ?_, ?_, ?_⟩
  · have := playSeq_all_ok cs s i hctx hok
    rwa [h0] at this
  · exact schedList_mono cs 0 hd
  · intro c rest heq
    subst heq
    simp [schedList]
  · exact gapless_noStall cs 0 hns
  · have := hview.2.1
    rwa [h0, hfilt] at this
  · intro s2 id c h2 hc
    rw [playAudioChunk_ok s2 id c h2 hc]
    simp

/-- Witness for claim C1 at a concrete stall-free two-chunk input. -/
theorem c1_gapless_schedule_witness :
    (liveState.outputCtx = true ∧ liveState.nextStartTime = 0 ∧
     (∀ c ∈ c1WitInput, c.ok = true) ∧ (∀ c ∈ c1WitInput, 0 ≤ c.dur) ∧
     noStall 0 c1WitInput = true) ∧
    C1Prop liveState 0 c1WitInput := by
  have hok : ∀ c ∈ c1WitInput, c.ok = true := by
    intro c hc
    simp only [c1WitInput, List.mem_cons, List.not_mem_nil, or_false] at hc
    rcases hc with h | h <;> rw [h]
  have hd : ∀ c ∈ c1WitInput, 0 ≤ c.dur := by
    intro c hc
    simp only [c1WitInput, List.mem_cons, List.not_mem_nil, or_false] at hc
    rcases hc with h | h <;> rw [h] <;> norm_num
  have hns : noStall 0 c1WitInput = true := by
    norm_num [noStall, noStallAux, c1WitInput]
  exact ⟨⟨rfl, rfl, hok, hd, hns⟩,
         c1_gapless_schedule liveState 0 c1WitInput rfl rfl hok hd hns⟩

/-- Claim C2: processing any inbound message carrying the interruption
flag, in any state and under any behaviour of the individual stop calls,
leaves the active-source set empty and nextStartTime 0, and stop is
invoked on every unit that was in the active set. -/
theorem c2_interruption_clears (f : Nat → Bool) (s : ClientState) (i : Nat)
    (m : ServerMsg) (h : m.interrupted = true) :
    ∃ r, handleMessage f s i m = Except.ok r ∧
      r.state.activeSources = [] ∧ r.state.nextStartTime = 0 ∧
      (∀ u ∈ s.activeSources, u ∈ r.stopped) := by
  refine ⟨_, handleMessage_eq_of_interrupted f s i m h, rfl, rfl, ?_⟩
  intro u hu
  exact audioStep_sources s i m u hu

/-- Witness for claim C2: an interruption arriving with two active units
and a nonzero timeline, where stopping unit 0 raises. -/
theorem c2_interruption_clears_witness :
    c2WitMsg.interrupted = true ∧
    ∃ r, handleMessage (fun u => u == 0) c2WitState 5 c2WitMsg = Except.ok r ∧
      r.state.activeSources = [] ∧ r.state.nextStartTime = 0 ∧
      (∀ u ∈ c2WitState.activeSources, u ∈ r.stopped) :=
  ⟨rfl, c2_interruption_clears (fun u => u == 0) c2WitState 5 c2WitMsg rfl⟩

/-- Claim C3, evidence of the code bug: the fragment sequence
[user he, user llo, turn-complete], [agent hi] yields three records, not
the two the claim states.  The turn-complete signal is routed with
isUser = false, so when the open record belongs to the user the App
appends a fresh empty complete model record instead of sealing the user
record, which stays incomplete. -/
theorem c3_turn_complete_routing :
    routeAndAggregate 0 [] c3Input =
      [⟨0, Role.user, "hello", false, 0⟩,
       ⟨2, Role.model, "", true, 2⟩,
       ⟨3, Role.model, "hi", false, 3⟩] ∧
    (routeAndAggregate 0 [] c3Input).length = 3 := ⟨rfl, rfl⟩

/-- Claim C4, counterexample to the claim as stated: after
[user hi], [agent hey] the code does yield two separate records, but the
user record is left with isComplete false — the role switch does not seal
it. -/
theorem c4_cex :
    routeAndAggregate 0 [] c4Input =
      [⟨0, Role.user, "hi", false, 0⟩, ⟨1, Role.model, "hey", false, 1⟩] ∧
    ¬ ((routeAndAggregate 0 [] c4Input).head?.map Message.isComplete =
        some true) := by
  refine ⟨rfl, ?_⟩
  have h : routeAndAggregate 0 [] c4Input =
      [⟨0, Role.user, "hi", false, 0⟩, ⟨1, Role.model, "hey", false, 1⟩] := rfl
  rw [h]
  simp

/-- Claim C4 (amended): when the last record is unsealed with role R and a
fragment for the opposite role arrives, a new unsealed record for the new
role is appended and no existing record is modified; in particular the
prior record is left unsealed, not marked complete. -/
theorem c4_role_switch (stamp : Nat) (prev : List Message) (lm : Message)
    (txt : String) (isUser : Bool)
    (hl : prev.getLast? = some lm) (hc : lm.isComplete = false)
    (hr : lm.role ≠ roleOf isUser) :
    onMessage stamp prev txt isUser false =
      prev ++ [⟨stamp, roleOf isUser, txt, false, stamp⟩] := by
  have hcond : ¬ (lm.role = roleOf isUser ∧ lm.isComplete = false) :=
    fun hand => hr hand.1
  simp only [onMessage, hl, if_neg hcond]

/-- Witness for claim C4 at the concrete transcript [user hi] receiving an
agent fragment. -/
theorem c4_role_switch_witness :
    ([(⟨0, Role.user, "hi", false, 0⟩ : Message)].getLast? =
        some ⟨0, Role.user, "hi", false, 0⟩ ∧
     (⟨0, Role.user, "hi", false, 0⟩ : Message).isComplete = false ∧
     (⟨0, Role.user, "hi", false, 0⟩ : Message).role ≠ roleOf false) ∧
    onMessage 1 [⟨0, Role.user, "hi", false, 0⟩] "hey" false false =
      [⟨0, Role.user, "hi", false, 0⟩] ++ [⟨1, roleOf false, "hey", false, 1⟩] := by
  refine ⟨⟨rfl, rfl, by decide⟩, ?_⟩
  exact c4_role_switch 1 _ _ "hey" false rfl rfl (by decide)

/-- Claim C5, counterexample to the claim as stated: a message carrying
both an input-transcription fragment and an output-transcription fragment
routes only the agent fragment; the user fragment is dropped because the
two transcription checks form an if / else-if pair. -/
theorem c5_cex :
    routeTranscription c5Msg = [("b", false, false)] ∧
    ("a", true, false) ∉ routeTranscription c5Msg := by
  refine ⟨rfl, ?_⟩
  simp [routeTranscription, c5Msg]

/-- Claim C5 (amended): the output- and input-transcription checks are
mutually exclusive with output taking precedence, so a message carrying
both routes exactly the agent fragment and never a user fragment; the
turn-complete check is applied independently of them, and the audio and
interruption processing of handleMessage leaves the routed events
unchanged. -/
theorem c5_routing_precedence (m : ServerMsg) (t u : String)
    (ho : m.outputTranscription = some t) (hi : m.inputTranscription = some u) :
    routeTranscription m =
      (t, false, false) :: (if m.turnComplete then [("", false, true)] else []) ∧
    (u, true, false) ∉ routeTranscription m ∧
    (∀ f s i, ∃ r, handleMessage f s i m = Except.ok r ∧
       r.msgEvents = routeTranscription m) := by
  have hroute : routeTranscription m =
      (t, false, false) :: (if m.turnComplete then [("", false, true)] else []) := by
    simp [routeTranscription, ho]
  refine ⟨hroute, ?_, ?_⟩
  · rw [hroute]
    cases m.turnComplete <;> simp
  · intro f s i
    cases hint : m.interrupted with
    | true => exact ⟨_, handleMessage_eq_of_interrupted f s i m hint, rfl⟩
    | false => exact ⟨_, handleMessage_eq_of_not_interrupted f s i m hint, rfl⟩

/-- Witness for claim C5 at a concrete message carrying both fragments and
the turn-complete flag. -/
theorem c5_routing_precedence_witness :
    (c5WitMsg.outputTranscription = some "b" ∧
     c5WitMsg.inputTranscription = some "a") ∧
    (routeTranscription c5WitMsg =
      ("b", false, false) ::
        (if c5WitMsg.turnComplete then [("", false, true)] else []) ∧
    ("a", true, false) ∉ routeTranscription c5WitMsg ∧
    (∀ f s i, ∃ r, handleMessage f s i c5WitMsg = Except.ok r ∧
       r.msgEvents = routeTranscription c5WitMsg)) :=
  ⟨⟨rfl, rfl⟩, c5_routing_precedence c5WitMsg "b" "a" rfl rfl⟩

/-- Claim C6, counterexample to the claim as stated: connectingState is
exactly the state connect leaves behind before the onopen callback fires
(isConnected still false, sessionPromise set).  A second connect in this
Connecting state is not a no-op: its trace acquires the microphone again
and opens a second transport, because the guard only checks
isConnected. -/
theorem c6_cex :
    connect initialState true =
      Except.ok (connectingState,
        [LiveAction.createdInputCtx, LiveAction.createdOutputCtx,
         LiveAction.acquiredMic, LiveAction.openedTransport]) ∧
    connectingState.isConnected = false ∧
    connectingState.sessionActive = true ∧
    LiveAction.acquiredMic ∈ connectTrace connectingState true ∧
    LiveAction.openedTransport ∈ connectTrace connectingState true := by
  have h : connectTrace connectingState true =
      [LiveAction.createdInputCtx, LiveAction.createdOutputCtx,
       LiveAction.acquiredMic, LiveAction.openedTransport] := rfl
  refine ⟨rfl, rfl, rfl, ?_, ?_⟩ <;> rw [h] <;> decide

/-- Claim C6 (amended): connect is a no-op exactly when the session is
Open (isConnected true): the state is unchanged and no action — no
resource acquisition, no transport, no error — is performed. -/
theorem c6_noop_when_open (s : ClientState) (micOk : Bool)
    (h : s.isConnected = true) :
    connect s micOk = Except.ok (s, []) := by
  simp [connect, h]

/-- Witness for claim C6 at the opened connection state. -/
theorem c6_noop_when_open_witness :
    openedState.isConnected = true ∧
    connect openedState true = Except.ok (openedState, []) :=
  ⟨rfl, c6_noop_when_open openedState true rfl⟩

/-- Claim C7: disconnect never raises for any prior state — including the
never-connected initial state and a repeated call — and leaves a Closed
state with the microphone stopped, processor and source disconnected,
audio contexts closed (one release action per handle held), the
active-source set empty and nextStartTime 0. -/
theorem c7_disconnect_total (s : ClientState) :
    disconnect s = Except.ok (clearedState s, cleanupTrace s) ∧
    disconnect (clearedState s) = Except.ok (clearedState s, []) ∧
    (clearedState s).isConnected = false ∧
    (clearedState s).mediaStream = false ∧
    (clearedState s).processor = false ∧
    (clearedState s).source = false ∧
    (clearedState s).inputCtx = false ∧
    (clearedState s).outputCtx = false ∧
    (clearedState s).activeSources = [] ∧
    (clearedState s).nextStartTime = 0 := by
  refine ⟨disconnect_ok s, ?_, rfl, rfl, rfl, rfl, rfl, rfl, rfl, rfl⟩
  rw [disconnect_ok (clearedState s), clearedState_idem, cleanupTrace_cleared]

/-- Claim C8, counterexample to the claim as stated: when the microphone
acquisition fails during connect from the initial state, the trace shows
the error event emitted at position 2, before the audio contexts are
closed at positions 3 and 4 — the resources are not released before the
error is surfaced. -/
theorem c8_cex :
    connectTrace initialState false =
      [LiveAction.createdInputCtx, LiveAction.createdOutputCtx,
       LiveAction.emittedError, LiveAction.closedInputCtx,
       LiveAction.closedOutputCtx] ∧
    (connectTrace initialState false).indexOf LiveAction.emittedError <
      (connectTrace initialState false).indexOf LiveAction.closedInputCtx := by
  have h : connectTrace initialState false =
      [LiveAction.createdInputCtx, LiveAction.createdOutputCtx,
       LiveAction.emittedError, LiveAction.closedInputCtx,
       LiveAction.closedOutputCtx] := rfl
  refine ⟨h, ?_⟩
  rw [h]
  decide

/-- Claim C8 (amended): on a failed connect the error event is emitted
first and every partially-acquired resource is then released before the
call completes, so no partial state — no held handle, no isConnected —
survives; the transport-failure callback behaves the same way. -/
theorem c8_failure_releases_all (s : ClientState) (h : s.isConnected = false) :
    (∃ tr, connect s false = Except.ok (clearedState s, tr) ∧
       LiveAction.emittedError ∈ tr ∧ LiveAction.closedInputCtx ∈ tr ∧
       LiveAction.closedOutputCtx ∈ tr) ∧
    (∀ s2, onErrorCb s2 =
       Except.ok (clearedState s2, LiveAction.emittedError :: cleanupTrace s2)) ∧
    (clearedState s).inputCtx = false ∧ (clearedState s).outputCtx = false ∧
    (clearedState s).mediaStream = false ∧
    (clearedState s).isConnected = false := by
  refine ⟨⟨[LiveAction.createdInputCtx, LiveAction.createdOutputCtx,
            LiveAction.emittedError] ++
             cleanupTrace { s with inputCtx := true, outputCtx := true },
          ?_, ?_, ?_, ?_⟩, ?_, rfl, rfl, rfl, rfl⟩
  · simp [connect, h, cleanup_ok, clearedState]
  · simp
  · simp [cleanupTrace]
  · simp [cleanupTrace]
  · intro s2
    simp [onErrorCb, cleanup_ok]

/-- Witness for claim C8 at the initial state. -/
theorem c8_failure_releases_all_witness :
    initialState.isConnected = false ∧
    ((∃ tr, connect initialState false =
         Except.ok (clearedState initialState, tr) ∧
       LiveAction.emittedError ∈ tr ∧ LiveAction.closedInputCtx ∈ tr ∧
       LiveAction.closedOutputCtx ∈ tr) ∧
    (∀ s2, onErrorCb s2 =
       Except.ok (clearedState s2, LiveAction.emittedError :: cleanupTrace s2)) ∧
    (clearedState initialState).inputCtx = false ∧
    (clearedState initialState).outputCtx = false ∧
    (clearedState initialState).mediaStream = false ∧
    (clearedState initialState).isConnected = false) :=
  ⟨rfl, c8_failure_releases_all initialState rfl⟩

/-- Claim C9, counterexample to the claim as stated: the middle chunk
fails to decode and is dropped, but the two surviving chunks are separated
by a stall (the third arrives at device time 5), so the third schedules at
5, not at the previous surviving start plus its duration (1): the
survivors are not gapless relative to each other. -/
theorem c9_cex :
    (playSeq liveState 0 c9CexInput).2 = [some 0, none, some 5] ∧
    ¬ List.Chain' (fun p q => q.1 = p.1 + p.2)
        (((playSeq liveState 0 c9CexInput).2.reduceOption).zip
          ((c9CexInput.filter fun c => c.ok).map Chunk.dur)) := by
  constructor
  · norm_num [playSeq, playAudioChunk, liveState, c9CexInput]
  · have h : ((playSeq liveState 0 c9CexInput).2.reduceOption).zip
        ((c9CexInput.filter fun c => c.ok).map Chunk.dur) =
          [((0 : ℚ), (1 : ℚ)), (5, 1)] := by
      norm_num [playSeq, playAudioChunk, liveState, c9CexInput,
                List.reduceOption, List.filterMap, List.filter]
    rw [h]
    intro hch
    have := List.chain'_cons.mp hch
    norm_num at this

/-- Claim C9 (amended): a decode failure is non-fatal and local — the
failed chunk leaves the state untouched, schedules nothing, adds nothing
to the active set, and handleMessage surfaces only the transcript routing,
never an error event; the surviving chunks schedule exactly as the
failure-free subsequence would and, provided no stall separates them,
gaplessly relative to each other. -/
theorem c9_decode_local (s : ClientState) (i : Nat) (cs : List Chunk)
    (hctx : s.outputCtx = true) (h0 : s.nextStartTime = 0)
    (hns : noStall 0 (cs.filter fun c => c.ok) = true) :
    C9Prop s i cs := by
  have hview := playSeq_view cs s i hctx
  refine ⟨?_, ?_, ?_, ?_, ?_⟩
  · intro s2 id c hc
    exact playAudioChunk_fail s2 id c hc
  · intro f s2 id m
    cases hint : m.interrupted with
    | true => exact ⟨_, handleMessage_eq_of_interrupted f s2 id m hint, rfl⟩
    | false => exact ⟨_, handleMessage_eq_of_not_interrupted f s2 id m hint, rfl⟩
  · have := hview.2.2
    rwa [h0] at this
  · have := hview.2.1
    rwa [h0] at this
  · exact gapless_noStall _ 0 hns

/-- Witness for claim C9 at a three-chunk input whose middle chunk fails
to decode, the survivors stall-free. -/
theorem c9_decode_local_witness :
    (liveState.outputCtx = true ∧ liveState.nextStartTime = 0 ∧
     noStall 0 (c9WitInput.filter fun c => c.ok) = true) ∧
    C9Prop liveState 0 c9WitInput := by
  have hns : noStall 0 (c9WitInput.filter fun c => c.ok) = true := by
    norm_num [noStall, noStallAux, c9WitInput, List.filter]
  exact ⟨⟨rfl, rfl, hns⟩, c9_decode_local liveState 0 c9WitInput rfl rfl hns⟩

/-- Claim C10: the interruption handler is exception-safe per unit — the
try/catch around each stop means the branch never propagates an exception
whatever the stop oracle does, stop is invoked on every unit of the active
set in order, and the branch always ends with an empty active set and
nextStartTime 0; its outcome is independent of which stops raise. -/
theorem c10_interrupt_exception_safety (f g : Nat → Bool) (s : ClientState) :
    handleInterrupted f s =
      Except.ok ({ s with activeSources := [], nextStartTime := 0 },
                 s.activeSources) ∧
    handleInterrupted f s = handleInterrupted g s := by
  refine ⟨handleInterrupted_eq f s, ?_⟩
  rw [handleInterrupted_eq f s, handleInterrupted_eq g s]
